import Mathlib

/-!
Shallow embedding of `src/tuzilastvobih.py` (class `TuzilastvoBIHScraper` and
`main`) and verification of the specification's claims about it.

External effects are modelled as explicit oracle parameters:
* `tr : String → Option String` — the translation backend (`translate_text`);
  `none` models the call raising an exception (any failure mode), `some t` a
  successful call whose `TranslatedText` field is `t`.
* `httpGet : String → Option DetailPage` — a detail-page HTTP GET; `none`
  models a `requests` exception or a non-2xx status (after `raise_for_status`).
* `listGet : Nat → Option ListingPage` — the page-number-parameterized listing
  GET of `fetch_page_content`, with the same failure convention.
* `uni : String → String` — `unidecode.unidecode`, a pure text transliteration.

Python `str` values are modelled as Lean `String`; `len` is `String.length`.
Python's `str.strip()` / `str.split()` / `re.sub(r'\s+', ' ', ...)` are modelled
by `pyStrip` / `pySplit` / `collapseWs` below, written directly over the
character list so that their behaviour is fully transparent to proofs.  (The
whitespace class is `Char.isWhitespace`, i.e. space/tab/CR/LF; Python in
addition treats `\f`, `\v` and some Unicode spaces as whitespace — characters
that never occur in the claims' inputs.)
-/

set_option autoImplicit false

namespace TuzilastvoBih

/-- Model of Python `s.strip()`: drop leading and trailing whitespace
characters. -/
def pyStrip (s : String) : String :=
  String.mk (((s.data.dropWhile Char.isWhitespace).reverse.dropWhile
      Char.isWhitespace).reverse)

/-- Worker for `pySplit`; `cur` holds the characters of the word currently
being read, in reverse order. -/
def wordsAux : List Char → List Char → List String
  | [], cur => if cur = [] then [] else [String.mk cur.reverse]
  | c :: cs, cur =>
    if c.isWhitespace then
      if cur = [] then wordsAux cs [] else String.mk cur.reverse :: wordsAux cs []
    else
      wordsAux cs (c :: cur)

/-- Model of Python `s.split()` with no arguments: split on runs of
whitespace, never producing empty fields. -/
def pySplit (s : String) : List String :=
  wordsAux s.data []

/-- Worker for `collapseWs`; the flag records whether the previous character
was whitespace (in which case further whitespace is absorbed). -/
def collapseWsAux : Bool → List Char → List Char
  | _, [] => []
  | prevWs, c :: cs =>
    if c.isWhitespace then
      if prevWs then collapseWsAux true cs else ' ' :: collapseWsAux true cs
    else
      c :: collapseWsAux false cs

/-- Model of Python `re.sub(r'\s+', ' ', s)`: every maximal run of whitespace
characters is replaced by a single space. -/
def collapseWs (s : String) : String :=
  String.mk (collapseWsAux false s.data)

/-- The chunk-building loop of `safe_translate` (src lines 55-67): greedily
accumulate whitespace-split words into `current` (`current_chunk` in the
source); when `len(current_chunk) + len(word) + 1 > chunk_size`, close the
current chunk (appending `current_chunk.strip()`) and start a new one with the
word; after the loop, a non-empty `current_chunk` is closed as a final chunk. -/
def chunkLoop (chunk_size : Nat) : List String → String → List String
  | [], current => if current = "" then [] else [pyStrip current]
  | w :: ws, current =>
    if chunk_size < current.length + w.length + 1 then
      pyStrip current :: chunkLoop chunk_size ws w
    else
      chunkLoop chunk_size ws (if current = "" then w else current ++ " " ++ w)

/-- The chunks `safe_translate` builds for a long text: split the text into
words (`text.split()`, src line 55) and run the greedy accumulation loop with
an empty initial chunk. -/
def makeChunks (chunk_size : Nat) (text : String) : List String :=
  chunkLoop chunk_size (pySplit text) ""

/-- Model of `TuzilastvoBIHScraper.safe_translate` (src lines 37-86).  The
first component of the result is the returned string; the second records, in
order, the inputs submitted to the external translation call (`translate_text`)
— empty when no external call is made.  `tr c = none` models the call raising
an exception for input `c` (caught per chunk on the chunked path, src lines
75-77, and by the outer `except` on the single-call path, src lines 84-86,
which returns the original text). -/
def safe_translate (tr : String → Option String) (chunk_size : Nat)
    (text : String) : String × List String :=
  if text.length < 3 then ("", [])
  else if chunk_size < text.length then
    let chunks := makeChunks chunk_size text
    let translated := chunks.map fun c =>
      match tr c with
      | some t => t
      | none => c
    (String.intercalate " " translated, chunks)
  else
    match tr text with
    | some t => (t, [text])
    | none => (text, [text])

/-- Numeric value of a list of decimal digit characters. -/
def digitsVal (l : List Char) : Nat :=
  l.foldl (fun a c => a * 10 + (c.toNat - 48)) 0

/-- Take the maximal leading run of decimal digits. -/
def takeDigits : List Char → List Char × List Char
  | [] => ([], [])
  | c :: cs =>
    if c.isDigit then
      let p := takeDigits cs
      (c :: p.1, p.2)
    else
      ([], c :: cs)

/-- Consume one expected literal character. -/
def expectChar (c : Char) : List Char → Option (List Char)
  | [] => none
  | x :: xs => if x = c then some xs else none

/-- Consume a 1-or-2-digit numeric field whose value lies in `lo..hi` — the
behaviour of CPython strptime's `%d`/`%m`/`%H`/`%M` field patterns (each is a
regex alternation accepting one or two digits within the field's range;
because every such field in the format `"%d.%m.%Y. %H:%M"` is followed by a
non-digit literal or the end of the input, matching the maximal digit run is
equivalent to the regex's backtracking behaviour). -/
def parse2Field (lo hi : Nat) (l : List Char) : Option (Nat × List Char) :=
  let p := takeDigits l
  if p.1.length = 1 ∨ p.1.length = 2 then
    if lo ≤ digitsVal p.1 ∧ digitsVal p.1 ≤ hi then some (digitsVal p.1, p.2)
    else none
  else none

/-- Consume the `%Y` field: exactly four decimal digits (CPython strptime's
pattern for `%Y` is four digits). -/
def parseYear : List Char → Option (Nat × List Char)
  | l =>
    let p := takeDigits l
    if p.1.length = 4 then some (digitsVal p.1, p.2) else none

/-- Consume the whitespace of the format string: CPython strptime compiles
whitespace in the format to the regex `\s+`, i.e. one or more whitespace
characters. -/
def parseWs : List Char → Option (List Char)
  | [] => none
  | c :: cs => if c.isWhitespace then some (cs.dropWhile Char.isWhitespace) else none

/-- Gregorian leap-year test, as in Python's `datetime`. -/
def isLeap (y : Nat) : Bool :=
  y % 4 == 0 && (y % 100 != 0 || y % 400 == 0)

/-- Days in a month, as validated by the `datetime` constructor. -/
def daysInMonth (y m : Nat) : Nat :=
  if m = 2 then (if isLeap y then 29 else 28)
  else if m = 4 ∨ m = 6 ∨ m = 9 ∨ m = 11 then 30
  else 31

/-- Model of `datetime.strptime(s, "%d.%m.%Y. %H:%M")` (src line 99): parse
day, month, 4-digit year, the literal periods, the mandatory whitespace, hour
and minute, require the whole string to be consumed (CPython raises unless the
regex match covers the entire input), then apply the `datetime` constructor's
range validation (year ≥ 1, day within the month's length).  Returns
`(day, month, year, hour, minute)` on success, `none` when strptime or the
constructor would raise. -/
def parseDMYHM (s : String) : Option (Nat × Nat × Nat × Nat × Nat) :=
  (parse2Field 1 31 s.data).bind fun dp =>
  (expectChar '.' dp.2).bind fun r2 =>
  (parse2Field 1 12 r2).bind fun mp =>
  (expectChar '.' mp.2).bind fun r4 =>
  (parseYear r4).bind fun yp =>
  (expectChar '.' yp.2).bind fun r6 =>
  (parseWs r6).bind fun r7 =>
  (parse2Field 0 23 r7).bind fun hp =>
  (expectChar ':' hp.2).bind fun r9 =>
  (parse2Field 0 59 r9).bind fun mip =>
  if mip.2 = [] ∧ 1 ≤ yp.1 ∧ dp.1 ≤ daysInMonth yp.1 mp.1 then
    some (dp.1, mp.1, yp.1, hp.1, mip.1)
  else none

/-- Zero-pad a number to two digits (strftime `%d`/`%m`/`%H`/`%M`). -/
def pad2 (n : Nat) : String :=
  if n < 10 then "0" ++ toString n else toString n

/-- Zero-pad a year to four digits (strftime `%Y`). -/
def pad4 (n : Nat) : String :=
  if n < 10 then "000" ++ toString n
  else if n < 100 then "00" ++ toString n
  else if n < 1000 then "0" ++ toString n
  else toString n

/-- Model of `TuzilastvoBIHScraper.format_date` (src lines 88-103).  The
argument is an `Option String` because the call site (src line 159-160) passes
`selector.get()`, which may be `None`; `strptime(None, …)` raises `TypeError`,
which the same `except` clause turns into the `('N/A', 'N/A')` sentinel, just
like a parse failure on an actual string. -/
def format_date (date_str : Option String) : String × String :=
  match date_str with
  | none => ("N/A", "N/A")
  | some s =>
    match parseDMYHM s with
    | none => ("N/A", "N/A")
    | some (d, m, y, h, mi) =>
      (pad4 y ++ "-" ++ pad2 m ++ "-" ++ pad2 d, pad2 h ++ ":" ++ pad2 mi)

/-- One harvested article, as built at src lines 170-180: the dictionary
returned by `extract_news_entry`, with one field per dictionary key. -/
structure Record where
  news_public_date : String
  news_public_time : String
  news_url : String
  news_heading : String
  news_heading_translated : String
  news_summary : String
  news_summary_translated : String
  news_details : String
  news_details_translated : String
deriving DecidableEq, Repr

/-- One listing row (`//div[@class="inner2"]//div[@class="news"]`):
`heading_texts` is the list of text nodes `.//h3//text()` and `href` the
optional `.//h3//@href` attribute (`none` when the selector yields `None`). -/
structure Row where
  heading_texts : List String
  href : Option String
deriving DecidableEq, Repr

/-- The parsed detail page, as consulted by `extract_news_entry` (src lines
156-168): the optional date text node, the `intro` block's text nodes, and the
text nodes of the body extraction xpath (which structurally excludes the
`intro`, `slider`, `note` and right-aligned blocks). -/
structure DetailPage where
  date_text : Option String
  intro_texts : List String
  body_texts : List String
deriving DecidableEq, Repr

/-- A successfully fetched listing page: its parsed news rows (possibly an
empty list, the end-of-archive case). -/
structure ListingPage where
  news_rows : List Row
deriving DecidableEq, Repr

/-- The first archive page as consulted by `scrape_all_pages` (src lines
186-191): the optional text of the pagination control
`//div[@class="pagination"]//a[10]//text()`. -/
structure FirstPage where
  pagination_text : Option String
deriving DecidableEq, Repr

/-- The scraper's base URL (src line 34). -/
def base_url : String := "https://www.tuzilastvobih.gov.ba/index.php"

/-- Model of `TuzilastvoBIHScraper.extract_news_entry` (src lines 139-184).
`uni` models `unidecode`, `httpGet` the detail-page GET (`none` = `requests`
exception or non-2xx status turned into an exception by `raise_for_status`,
both caught by the blanket `except` at src line 182, which returns `None`),
`tr` the translation oracle of `safe_translate`.  The heading is
`unidecode(' '.join(texts).strip())`; a falsy `news_url` (`None` or the empty
string, Python truthiness at src line 147) yields `None`; summary and body are
`re.sub(r'\s+', ' ', ' '.join(texts).strip())`; translations use the default
`chunk_size=3000`. -/
def extract_news_entry (uni : String → String)
    (httpGet : String → Option DetailPage) (tr : String → Option String)
    (row : Row) : Option Record :=
  let news_heading := uni (pyStrip (String.intercalate " " row.heading_texts))
  match row.href with
  | none => none
  | some u =>
    if u = "" then none
    else
      let full_url := base_url ++ u
      match httpGet full_url with
      | none => none
      | some page =>
        let dt := format_date page.date_text
        let news_summary := collapseWs (pyStrip (String.intercalate " " page.intro_texts))
        let news_details := collapseWs (pyStrip (String.intercalate " " page.body_texts))
        some {
          news_public_date := dt.1
          news_public_time := dt.2
          news_url := full_url
          news_heading := news_heading
          news_heading_translated := (safe_translate tr 3000 news_heading).1
          news_summary := news_summary
          news_summary_translated := (safe_translate tr 3000 news_summary).1
          news_details := news_details
          news_details_translated := (safe_translate tr 3000 news_details).1
        }

/-- Model of `TuzilastvoBIHScraper.fetch_page_content` (src lines 105-137).
`listGet page_num = none` models `requests.get`/`raise_for_status` raising
`requests.RequestException` (network error, timeout, or non-2xx status),
caught at src line 135 and turned into `[]`; `some pg` is a successfully
fetched listing page.  An empty row list returns `[]` early (src lines
124-125, the end-of-archive case); otherwise each row is extracted and the
non-`None` entries collected (src lines 127-133). -/
def fetch_page_content (listGet : Nat → Option ListingPage)
    (uni : String → String) (httpGet : String → Option DetailPage)
    (tr : String → Option String) (page_num : Nat) : List Record :=
  match listGet page_num with
  | none => []
  | some pg =>
    if pg.news_rows = [] then []
    else pg.news_rows.filterMap (extract_news_entry uni httpGet tr)

/-- Model of the result-collection loop of `scrape_all_pages` (src lines
197-201): `completions` lists the page tasks' results in the order
`as_completed` yields them; the loop extends `all_entries` with each result
until the first falsy (empty-list) result, at which point it `break`s and the
results of tasks still in flight — or already completed but not yet iterated —
are never collected. -/
def aggregate : List (List Record) → List Record
  | [] => []
  | r :: rest => if r = [] then [] else r ++ aggregate rest

/-- Model of Python `int(s)` on a string, as used at src line 191: leading and
trailing whitespace is allowed, then a non-empty digit string.  (Python also
accepts an optional sign and underscore separators — irrelevant for a
pagination label; on anything else `int` raises `ValueError`, and on `None` it
raises `TypeError`.) -/
def parse_int (s : String) : Option Nat :=
  let t := pyStrip s
  if t ≠ "" ∧ t.data.all Char.isDigit then some (digitsVal t.data) else none

/-- Model of the setup phase of `scrape_all_pages` (src lines 186-191): fetch
the first archive page — with no `try`, so a `requests` exception propagates —
read the pagination control's text (`None` when the node is absent), and apply
`int` to it.  `none` means an uncaught exception aborts the run before any
page task is submitted; `some n` is the computed `max_pages`. -/
def scrape_setup (firstGet : Option FirstPage) : Option Nat :=
  match firstGet with
  | none => none
  | some p =>
    match p.pagination_text with
    | none => none
    | some t => parse_int t

/-- Model of `main` (src lines 221-225): `scrape_all_pages` followed by
`save_to_excel`.  `completions` is the list of page-task results in completion
order (whatever that order is).  The value is the content of the output file:
`none` means an exception aborted the run before `save_to_excel`, so no file
is written; `some entries` means the file is written containing exactly
`entries`.  The page-task results cannot influence whether the setup phase
aborts, which is why `completions` is ignored on the `none` branch. -/
def main_run (firstGet : Option FirstPage)
    (completions : List (List Record)) : Option (List Record) :=
  match scrape_setup firstGet with
  | none => none
  | some _ => some (aggregate completions)

/-! ### Helper lemmas -/

theorem length_dropWhile_le {α : Type} (p : α → Bool) (l : List α) :
    (l.dropWhile p).length ≤ l.length := by
  induction l with
  | nil => simp
  | cons c cs ih =>
    by_cases h : p c
    · rw [List.dropWhile_cons_of_pos h]
      exact Nat.le_trans ih (Nat.le_succ _)
    · rw [List.dropWhile_cons_of_neg h]

theorem string_length_mk (l : List Char) : (String.mk l).length = l.length := rfl

theorem pyStrip_length_le (s : String) : (pyStrip s).length ≤ s.length := by
  have h1 := length_dropWhile_le Char.isWhitespace s.data
  have h2 := length_dropWhile_le Char.isWhitespace
      (s.data.dropWhile Char.isWhitespace).reverse
  unfold pyStrip
  rw [string_length_mk, List.length_reverse]
  rw [List.length_reverse] at h2
  calc ((s.data.dropWhile Char.isWhitespace).reverse.dropWhile
          Char.isWhitespace).length
      ≤ (s.data.dropWhile Char.isWhitespace).length := h2
    _ ≤ s.data.length := h1

theorem dropWhile_eq_self_of_false {α : Type} (p : α → Bool) (l : List α)
    (h : ∀ c ∈ l, p c = false) : l.dropWhile p = l := by
  cases l with
  | nil => rfl
  | cons c cs =>
    exact List.dropWhile_cons_of_neg (by simp [h c (List.mem_cons_self c cs)])

theorem pyStrip_eq_self_of_non_ws (s : String)
    (h : ∀ c ∈ s.data, c.isWhitespace = false) : pyStrip s = s := by
  unfold pyStrip
  rw [dropWhile_eq_self_of_false _ _ h]
  rw [dropWhile_eq_self_of_false _ _ (fun c hc => h c (List.mem_reverse.mp hc))]
  rw [List.reverse_reverse]

/-! ### Claim C1: the Empty and FetchError outcomes of a page fetch -/

/-- Claim C1, counterexample.  The claim states that the page-fetch
operation's result distinguishes the Empty outcome from the FetchError
outcome, "no single return value is produced for both outcomes".  This is
false: on a concrete failing fetch (the listing GET raises, first argument
`fun _ => none`) and on a concrete successfully fetched page with zero listing
rows, `fetch_page_content` returns one and the same value, `[]`. -/
theorem fetch_error_empty_same_value_cex :
    fetch_page_content (fun _ => none) id (fun _ => none) (fun _ => none) 1
      = fetch_page_content (fun _ => some ⟨[]⟩) id (fun _ => none) (fun _ => none) 1 :=
  rfl

/-- Claim C1, amended.  For every listing-page fetch, a failed fetch (non-2xx
status or network-level error, modelled by `listGet p = none`) and a
successfully fetched page containing zero listing entries both make
`fetch_page_content` return the same value, the empty list: the two outcomes
are not distinguished by the return value (only by the logged message). -/
theorem fetch_page_content_error_and_empty_both_nil
    (listGetErr listGetEmpty : Nat → Option ListingPage)
    (uni : String → String) (httpGet : String → Option DetailPage)
    (tr : String → Option String) (p q : Nat)
    (herr : listGetErr p = none)
    (hempty : listGetEmpty q = some ⟨[]⟩) :
    fetch_page_content listGetErr uni httpGet tr p = [] ∧
    fetch_page_content listGetEmpty uni httpGet tr q = [] ∧
    fetch_page_content listGetErr uni httpGet tr p
      = fetch_page_content listGetEmpty uni httpGet tr q := by
  refine ⟨?_, ?_, ?_⟩ <;> simp [fetch_page_content, herr, hempty]

/-- Witness for the amended claim C1 at concrete oracles. -/
theorem fetch_page_content_error_and_empty_both_nil_witness :
    fetch_page_content (fun _ => none) id (fun _ => none) (fun _ => none) 3 = [] ∧
    fetch_page_content (fun _ => some ⟨[]⟩) id (fun _ => none) (fun _ => none) 7 = [] ∧
    fetch_page_content (fun _ => none) id (fun _ => none) (fun _ => none) 3
      = fetch_page_content (fun _ => some ⟨[]⟩) id (fun _ => none) (fun _ => none) 7 :=
  fetch_page_content_error_and_empty_both_nil
    (fun _ => none) (fun _ => some ⟨[]⟩) id (fun _ => none) (fun _ => none) 3 7
    rfl rfl

/-! ### Claim C3: completion order and the first Empty result -/

/-- A sample record used to build concrete driver scenarios. -/
def sampleRec (u : String) : Record :=
  ⟨"N/A", "N/A", u, "", "", "", "", "", ""⟩

/-- Claim C3, counterexample.  The claim states that every task completing
with a non-empty result — including tasks completing after the first Empty was
observed — still has its Records incorporated into the final aggregate.  This
is false: in the completion order `[[r₁], [], [r₂]]` the third task completes
with the non-empty result `[r₂]`, yet the final aggregate is `[r₁]` and `r₂`
is not in it (the collection loop `break`s at the empty result). -/
theorem late_nonempty_result_dropped_cex :
    aggregate [[sampleRec "?id=1"], [], [sampleRec "?id=2"]] = [sampleRec "?id=1"] ∧
    sampleRec "?id=2" ∉ aggregate [[sampleRec "?id=1"], [], [sampleRec "?id=2"]] := by
  decide

/-- Claim C3, amended.  For every completion order of the page tasks, the
final aggregate contains exactly the Records of the non-empty results observed
before the first empty result in completion order: results of tasks completing
after the first observed Empty are never incorporated (the tasks themselves
are not cancelled and run to completion, but the collection loop has already
exited). -/
theorem aggregate_eq_flatten_takeWhile (completions : List (List Record)) :
    aggregate completions
      = (completions.takeWhile fun r => !r.isEmpty).flatten := by
  induction completions with
  | nil => rfl
  | cons r rest ih =>
    cases r with
    | nil => simp [aggregate, List.takeWhile_cons]
    | cons a as => simp [aggregate, List.takeWhile_cons, ih]

/-! ### Claim C4: the date parser -/

/-- Claim C4, counterexample.  The claim states that unparsable input yields
the sentinel pair `("unknown", "unknown")`.  In the code the `except` branch
returns `('N/A', 'N/A')` (src line 103): on the concrete unparsable input
`"not-a-date"` the result is `("N/A", "N/A")`, not `("unknown", "unknown")`. -/
theorem format_date_sentinel_not_unknown_cex :
    format_date (some "not-a-date") = ("N/A", "N/A") ∧
    format_date (some "not-a-date") ≠ ("unknown", "unknown") := by
  decide

/-- Claim C4, amended.  The date parser maps `"05.03.2021. 14:30"` to
`("2021-03-05", "14:30")`, and every input it fails to parse (malformed input,
wrong field counts, out-of-range values — `parseDMYHM s = none`) yields the
sentinel pair `("N/A", "N/A")` (not `("unknown", "unknown")`), without
propagating a hard failure. -/
theorem format_date_spec :
    format_date (some "05.03.2021. 14:30") = ("2021-03-05", "14:30") ∧
    ∀ s : String, parseDMYHM s = none → format_date (some s) = ("N/A", "N/A") := by
  refine ⟨by decide, fun s h => ?_⟩
  simp [format_date, h]

/-- Witness for the amended claim C4: the success case, plus the sentinel on a
concrete out-of-range input. -/
theorem format_date_spec_witness :
    format_date (some "05.03.2021. 14:30") = ("2021-03-05", "14:30") ∧
    format_date (some "99.99.9999. 99:99") = ("N/A", "N/A") :=
  ⟨format_date_spec.1, format_date_spec.2 "99.99.9999. 99:99" (by decide)⟩

/-! ### Claim C7: short inputs are not translated -/

/-- Claim C7, confirmed.  For every text that is empty or shorter than 3
characters, `safe_translate` returns the empty string and submits nothing to
the external translation call (the call log is empty). -/
theorem safe_translate_short_no_call (tr : String → Option String)
    (chunk_size : Nat) (text : String) (h : text.length < 3) :
    safe_translate tr chunk_size text = ("", []) := by
  simp [safe_translate, h]

/-- Witness for claim C7: the empty string and a 2-character string. -/
theorem safe_translate_short_no_call_witness :
    safe_translate (fun s => some s) 3000 "" = ("", []) ∧
    safe_translate (fun s => some s) 3000 "ab" = ("", []) :=
  ⟨safe_translate_short_no_call (fun s => some s) 3000 "" (by decide),
   safe_translate_short_no_call (fun s => some s) 3000 "ab" (by decide)⟩

/-! ### Claim C2: a failed page fetch and the rest of the run -/

theorem aggregate_break_at_empty (pre post : List (List Record))
    (h : ∀ l ∈ pre, l ≠ []) :
    aggregate (pre ++ [] :: post) = pre.flatten := by
  induction pre with
  | nil => simp [aggregate]
  | cons r rest ih =>
    have hr : r ≠ [] := h r (List.mem_cons_self r rest)
    simp [aggregate, hr, ih (fun l hl => h l (List.mem_cons_of_mem r hl))]

/-- Claim C2, counterexample.  The claim states that when one page's listing
fetch fails, the driver still collects and aggregates the Records of every
other page's task.  This is false: page 1's fetch fails (contributing `[]`,
the first conjunct, as the claim says), page 2's task completes with the
non-empty result `[sampleRec "?id=2"]`, yet the run writes `some []` — the
other page's Records are not collected, because the empty result of the failed
page `break`s the collection loop. -/
theorem page_fetch_error_loses_sibling_records_cex :
    fetch_page_content (fun _ => none) id (fun _ => none) (fun _ => none) 1 = [] ∧
    main_run (some ⟨some "2"⟩)
      [fetch_page_content (fun _ => none) id (fun _ => none) (fun _ => none) 1,
       [sampleRec "?id=2"]] = some [] ∧
    [sampleRec "?id=2"] ≠ ([] : List Record) := by
  decide

/-- Claim C2, amended.  If one page's listing fetch fails (network error,
timeout, or non-2xx status), that page contributes zero Records and the run
still completes and writes an output file; but because a failed page is
indistinguishable from an empty (end-of-archive) page, the driver stops
collecting at it: the file contains exactly the Records of the tasks observed
before the failed page in completion order, and the results of tasks observed
after it are discarded. -/
theorem page_fetch_error_truncates_aggregate
    (firstGet : Option FirstPage) (maxp : Nat)
    (listGet : Nat → Option ListingPage) (uni : String → String)
    (httpGet : String → Option DetailPage) (tr : String → Option String)
    (p : Nat) (pre post : List (List Record))
    (hsetup : scrape_setup firstGet = some maxp)
    (herr : listGet p = none)
    (hpre : ∀ l ∈ pre, l ≠ []) :
    fetch_page_content listGet uni httpGet tr p = [] ∧
    main_run firstGet
        (pre ++ fetch_page_content listGet uni httpGet tr p :: post)
      = some pre.flatten := by
  have hfpc : fetch_page_content listGet uni httpGet tr p = [] := by
    simp [fetch_page_content, herr]
  refine ⟨hfpc, ?_⟩
  simp [main_run, hsetup, hfpc, aggregate_break_at_empty pre post hpre]

/-- Witness for the amended claim C2: three pages, page 2's fetch fails and is
observed second; the run writes exactly page 1's record, and page 3's record
(observed third) is dropped. -/
theorem page_fetch_error_truncates_aggregate_witness :
    fetch_page_content (fun _ => none) id (fun _ => none) (fun _ => none) 2 = [] ∧
    main_run (some ⟨some "3"⟩)
        ([[sampleRec "?id=1"]]
          ++ fetch_page_content (fun _ => none) id (fun _ => none) (fun _ => none) 2
            :: [[sampleRec "?id=3"]])
      = some ([[sampleRec "?id=1"]] : List (List Record)).flatten :=
  page_fetch_error_truncates_aggregate (some ⟨some "3"⟩) 3
    (fun _ => none) id (fun _ => none) (fun _ => none) 2
    [[sampleRec "?id=1"]] [[sampleRec "?id=3"]] (by decide) rfl (by decide)

/-! ### Claim C6: best-effort translation -/

/-- Claim C6, confirmed.  Translation is best-effort and never fatal: for a
text of length at least 3 and at most `chunk_size`, a failed translation call
(`tr text = none`) makes `safe_translate` return the original text unchanged;
for a longer (chunked) text, each chunk whose translation call fails is
replaced by that chunk's own original text while successfully translated
chunks keep their translations, and the resulting chunks are joined with a
single space. -/
theorem safe_translate_best_effort (tr : String → Option String)
    (chunk_size : Nat) (text : String) (h3 : 3 ≤ text.length) :
    (text.length ≤ chunk_size → tr text = none →
      (safe_translate tr chunk_size text).1 = text) ∧
    (chunk_size < text.length →
      (safe_translate tr chunk_size text).1
        = String.intercalate " " ((makeChunks chunk_size text).map fun c =>
            match tr c with
            | some t => t
            | none => c)) := by
  have hlt : ¬ text.length < 3 := by omega
  constructor
  · intro hle htr
    have : ¬ chunk_size < text.length := by omega
    simp [safe_translate, hlt, this, htr]
  · intro hgt
    simp [safe_translate, hlt, hgt]

/-- Witness for claim C6: a failing translation backend on an un-chunked text
returns the text unchanged, and on a chunked text returns the space-join of
the per-chunk fallbacks. -/
theorem safe_translate_best_effort_witness :
    (safe_translate (fun _ => none) 10 "abcd").1 = "abcd" ∧
    (safe_translate (fun _ => none) 3 "abcde").1
      = String.intercalate " " ((makeChunks 3 "abcde").map fun c =>
          match (fun (_ : String) => (none : Option String)) c with
          | some t => t
          | none => c) :=
  ⟨(safe_translate_best_effort (fun _ => none) 10 "abcd" (by decide)).1
      (by decide) rfl,
   (safe_translate_best_effort (fun _ => none) 3 "abcde" (by decide)).2
      (by decide)⟩

/-! ### Claim C8: every emitted Record is complete -/

/-- Claim C8, confirmed.  Whenever the structural part of extraction succeeds
(the listing entry carries a non-empty link and the detail page is fetched),
`extract_news_entry` emits a full `Record` — every one of the nine fields is a
definite string — for every date text (including unparsable ones, which yield
the `'N/A'` sentinel via `format_date`) and for every translation oracle
(including an always-failing one): non-fatal errors never produce a partial
Record, and when extraction fails it emits no Record at all (`none`), never a
partial one. -/
theorem extract_news_entry_total_record (uni : String → String)
    (httpGet : String → Option DetailPage) (tr : String → Option String)
    (row : Row) (u : String) (page : DetailPage)
    (hu : row.href = some u) (hne : u ≠ "")
    (hget : httpGet (base_url ++ u) = some page) :
    extract_news_entry uni httpGet tr row = some {
      news_public_date := (format_date page.date_text).1
      news_public_time := (format_date page.date_text).2
      news_url := base_url ++ u
      news_heading := uni (pyStrip (String.intercalate " " row.heading_texts))
      news_heading_translated := (safe_translate tr 3000
        (uni (pyStrip (String.intercalate " " row.heading_texts)))).1
      news_summary := collapseWs (pyStrip (String.intercalate " " page.intro_texts))
      news_summary_translated := (safe_translate tr 3000
        (collapseWs (pyStrip (String.intercalate " " page.intro_texts)))).1
      news_details := collapseWs (pyStrip (String.intercalate " " page.body_texts))
      news_details_translated := (safe_translate tr 3000
        (collapseWs (pyStrip (String.intercalate " " page.body_texts)))).1 } := by
  simp [extract_news_entry, hu, hne, hget]

/-- A sample detail page whose date text is unparsable, for the C8 witness. -/
def samplePage : DetailPage := ⟨some "bad date", ["intro tekst"], ["glavni tekst"]⟩

/-- A sample listing row carrying a link, for the C8 witness. -/
def sampleRow : Row := ⟨["Optuznica potvrdjena"], some "?id=7"⟩

/-- Witness for claim C8: with an unparsable date and an always-failing
translation backend, a complete record is still emitted. -/
theorem extract_news_entry_total_record_witness :
    extract_news_entry id (fun _ => some samplePage) (fun _ => none) sampleRow
      = some {
          news_public_date := (format_date samplePage.date_text).1
          news_public_time := (format_date samplePage.date_text).2
          news_url := base_url ++ "?id=7"
          news_heading := id (pyStrip (String.intercalate " " sampleRow.heading_texts))
          news_heading_translated := (safe_translate (fun _ => none) 3000
            (id (pyStrip (String.intercalate " " sampleRow.heading_texts)))).1
          news_summary := collapseWs (pyStrip (String.intercalate " " samplePage.intro_texts))
          news_summary_translated := (safe_translate (fun _ => none) 3000
            (collapseWs (pyStrip (String.intercalate " " samplePage.intro_texts)))).1
          news_details := collapseWs (pyStrip (String.intercalate " " samplePage.body_texts))
          news_details_translated := (safe_translate (fun _ => none) 3000
            (collapseWs (pyStrip (String.intercalate " " samplePage.body_texts)))).1 } :=
  extract_news_entry_total_record id (fun _ => some samplePage) (fun _ => none)
    sampleRow "?id=7" samplePage rfl (by decide) rfl

/-! ### Claim C9: a failed setup aborts the run with no output -/

/-- Claim C9, confirmed.  If the first archive page cannot be fetched at all,
or the max-page indicator is absent from it, or its text is unparsable as an
integer, the run aborts (the exception propagates out of `scrape_all_pages`
before the worker pool is created, so no page task is submitted) and no output
file is produced — for every possible list of page-task results, i.e. nothing
about the page tasks can change this outcome. -/
theorem setup_failure_no_output (firstGet : Option FirstPage)
    (completions : List (List Record))
    (h : firstGet = none ∨ ∃ p, firstGet = some p ∧
        (p.pagination_text = none ∨
          ∃ t, p.pagination_text = some t ∧ parse_int t = none)) :
    main_run firstGet completions = none := by
  rcases h with rfl | ⟨p, rfl, hp⟩
  · rfl
  · rcases hp with hnone | ⟨t, ht, hbad⟩
    · simp [main_run, scrape_setup, hnone]
    · simp [main_run, scrape_setup, ht, hbad]

/-- Witness for claim C9: an unparsable pagination label aborts the run even
though a page task could have produced a record. -/
theorem setup_failure_no_output_witness :
    main_run (some ⟨some "abc"⟩) [[sampleRec "?id=9"]] = none :=
  setup_failure_no_output (some ⟨some "abc"⟩) [[sampleRec "?id=9"]]
    (Or.inr ⟨⟨some "abc"⟩, rfl, Or.inr ⟨"abc", rfl, by decide⟩⟩)

/-! ### Claim C10: listing entries without a link are skipped silently -/

/-- Claim C10, confirmed.  A listing entry whose heading carries no link URL
attribute yields no Record and no error (`extract_news_entry` returns `none`,
the same quiet value as for any skipped entry — there is no error channel in
the return type), and the sibling entries of the same page are still
processed: the page's result is exactly the concatenation of the records
extracted from the entries before and after the malformed one. -/
theorem missing_href_entry_skipped (uni : String → String)
    (httpGet : String → Option DetailPage) (tr : String → Option String)
    (bad : Row) (hbad : bad.href = none)
    (listGet : Nat → Option ListingPage) (p : Nat) (pre post : List Row)
    (hpage : listGet p = some ⟨pre ++ bad :: post⟩) :
    extract_news_entry uni httpGet tr bad = none ∧
    fetch_page_content listGet uni httpGet tr p
      = pre.filterMap (extract_news_entry uni httpGet tr)
        ++ post.filterMap (extract_news_entry uni httpGet tr) := by
  have hext : extract_news_entry uni httpGet tr bad = none := by
    simp [extract_news_entry, hbad]
  have hne : pre ++ bad :: post ≠ [] := by cases pre <;> simp
  refine ⟨hext, ?_⟩
  simp [fetch_page_content, hpage, hne, List.filterMap_append,
    List.filterMap_cons, hext]

/-- A listing row with a link, for the C10 witness. -/
def goodRow : Row := ⟨["Saopstenje"], some "?id=1"⟩

/-- A listing row whose heading carries no link attribute, for the C10
witness. -/
def badRow : Row := ⟨["x"], none⟩

/-- Witness for claim C10: a page holding a good entry followed by a link-less
entry yields exactly the good entry's record. -/
theorem missing_href_entry_skipped_witness :
    extract_news_entry id (fun _ => some samplePage) (fun _ => none) badRow = none ∧
    fetch_page_content (fun _ => some ⟨[goodRow, badRow]⟩) id
        (fun _ => some samplePage) (fun _ => none) 1
      = [goodRow].filterMap
          (extract_news_entry id (fun _ => some samplePage) (fun _ => none))
        ++ ([] : List Row).filterMap
          (extract_news_entry id (fun _ => some samplePage) (fun _ => none)) :=
  missing_href_entry_skipped id (fun _ => some samplePage) (fun _ => none)
    badRow rfl (fun _ => some ⟨[goodRow, badRow]⟩) 1 [goodRow] [] rfl

/-! ### Claim C5: the greedy chunking of long texts -/

/-- The string a chunk's words are joined into by the accumulation loop: the
first word, then `acc ++ " " ++ w` for each following word — the exact
`current_chunk += " " + word` shape of src line 64. -/
def joinWords : List String → String
  | [] => ""
  | w :: ws => ws.foldl (fun acc x => acc ++ " " ++ x) w

theorem joinWords_append_word (l : List String) (hl : l ≠ []) (w : String) :
    joinWords (l ++ [w]) = joinWords l ++ " " ++ w := by
  cases l with
  | nil => exact absurd rfl hl
  | cons a as =>
    show (as ++ [w]).foldl (fun acc x => acc ++ " " ++ x) a = _
    rw [List.foldl_append]
    rfl

theorem string_mk_ne_empty (l : List Char) (h : l ≠ []) :
    String.mk l ≠ "" := by
  intro he
  exact h (congrArg String.data he)

theorem string_ne_empty_of_length_pos (s : String) (h : 0 < s.length) :
    s ≠ "" := by
  intro he
  subst he
  simp at h

theorem chunkLoop_length_le (chunk_size : Nat) :
    ∀ (ws : List String) (current : String),
      (∀ w ∈ ws, w.length ≤ chunk_size) → current.length ≤ chunk_size →
      ∀ c ∈ chunkLoop chunk_size ws current, c.length ≤ chunk_size := by
  intro ws
  induction ws with
  | nil =>
    intro current _ hcur c hc
    by_cases h : current = ""
    · simp [chunkLoop, h] at hc
    · simp [chunkLoop, h] at hc
      subst hc
      exact Nat.le_trans (pyStrip_length_le current) hcur
  | cons w ws ih =>
    intro current hws hcur c hc
    have hw : w.length ≤ chunk_size := hws w (List.mem_cons_self w ws)
    have hws' : ∀ x ∈ ws, x.length ≤ chunk_size :=
      fun x hx => hws x (List.mem_cons_of_mem w hx)
    by_cases h : chunk_size < current.length + w.length + 1
    · rw [chunkLoop, if_pos h] at hc
      rcases List.mem_cons.mp hc with rfl | hc'
      · exact Nat.le_trans (pyStrip_length_le current) hcur
      · exact ih w hws' hw c hc'
    · rw [chunkLoop, if_neg h] at hc
      refine ih _ hws' ?_ c hc
      by_cases hcur0 : current = ""
      · simpa [hcur0] using hw
      · rw [if_neg hcur0]
        have hsp : (" " : String).length = 1 := rfl
        have : (current ++ " " ++ w).length
            = current.length + 1 + w.length := by
          rw [String.length_append, String.length_append, hsp]
        omega

theorem chunkLoop_partition (chunk_size : Nat) :
    ∀ (ws : List String), (∀ w ∈ ws, w ≠ "") →
    ∀ (cur : List String), (cur ≠ [] → joinWords cur ≠ "") →
      ∃ parts : List (List String),
        parts.flatten = cur ++ ws ∧
        chunkLoop chunk_size ws (joinWords cur)
          = parts.map fun l => pyStrip (joinWords l) := by
  intro ws
  induction ws with
  | nil =>
    intro _ cur hcur
    cases cur with
    | nil => exact ⟨[], rfl, rfl⟩
    | cons a as =>
      refine ⟨[a :: as], by simp, ?_⟩
      have hne : joinWords (a :: as) ≠ "" := hcur (by simp)
      simp [chunkLoop, hne]
  | cons w ws ih =>
    intro hws cur hcur
    have hw : w ≠ "" := hws w (List.mem_cons_self w ws)
    have hws' : ∀ x ∈ ws, x ≠ "" :=
      fun x hx => hws x (List.mem_cons_of_mem w hx)
    by_cases h : chunk_size < (joinWords cur).length + w.length + 1
    · obtain ⟨parts, hflat, heq⟩ := ih hws' [w] (fun _ => hw)
      have heq' : chunkLoop chunk_size ws w
          = List.map (fun l => pyStrip (joinWords l)) parts := heq
      refine ⟨cur :: parts, by simp [hflat], ?_⟩
      rw [chunkLoop, if_pos h, List.map_cons, heq']
    · by_cases hc : cur = []
      · obtain ⟨parts, hflat, heq⟩ := ih hws' [w] (fun _ => hw)
        have heq' : chunkLoop chunk_size ws w
            = List.map (fun l => pyStrip (joinWords l)) parts := heq
        refine ⟨parts, by simp [hc, hflat], ?_⟩
        subst hc
        rw [chunkLoop, if_neg h]
        rw [show joinWords ([] : List String) = "" from rfl]
        rw [if_pos rfl]
        exact heq'
      · have hne : joinWords cur ≠ "" := hcur hc
        have hjw : joinWords (cur ++ [w]) = joinWords cur ++ " " ++ w :=
          joinWords_append_word cur hc w
        have hcur' : cur ++ [w] ≠ [] → joinWords (cur ++ [w]) ≠ "" := by
          intro _
          rw [hjw]
          apply string_ne_empty_of_length_pos
          rw [String.length_append, String.length_append]
          have hsp : (" " : String).length = 1 := rfl
          omega
        obtain ⟨parts, hflat, heq⟩ := ih hws' (cur ++ [w]) hcur'
        refine ⟨parts, by simp [hflat], ?_⟩
        rw [chunkLoop, if_neg h, if_neg hne, ← hjw]
        exact heq

theorem wordsAux_ne_empty :
    ∀ (l cur : List Char), ∀ w ∈ wordsAux l cur, w ≠ "" := by
  intro l
  induction l with
  | nil =>
    intro cur w hw
    by_cases h : cur = []
    · simp [wordsAux, h] at hw
    · simp [wordsAux, h] at hw
      subst hw
      exact string_mk_ne_empty _ (by simpa using h)
  | cons c cs ih =>
    intro cur w hw
    rw [wordsAux] at hw
    by_cases hcw : c.isWhitespace
    · rw [if_pos hcw] at hw
      by_cases h : cur = []
      · rw [if_pos h] at hw
        exact ih [] w hw
      · rw [if_neg h] at hw
        rcases List.mem_cons.mp hw with rfl | hw'
        · exact string_mk_ne_empty _ (by simpa using h)
        · exact ih [] w hw'
    · rw [if_neg hcw] at hw
      exact ih (c :: cur) w hw

theorem pySplit_ne_empty (s : String) : ∀ w ∈ pySplit s, w ≠ "" :=
  fun w hw => wordsAux_ne_empty s.data [] w hw

/-- Claim C5, amended.  For every text longer than `chunk_size`, no chunk
boundary falls inside a word: the text's word sequence splits into contiguous
blocks whose in-order space-joins (stripped, as the source does) are exactly
the chunks.  And provided additionally that every whitespace-delimited word of
the text has length at most `chunk_size`, every chunk's length is at most
`chunk_size`.  The word-length proviso on the length half is the amendment: a
single word longer than `chunk_size` becomes a chunk by itself, exceeding the
limit (see the counterexample, whose text the unconditional partition half
still covers). -/
theorem makeChunks_word_bounded_spec (chunk_size : Nat) (text : String)
    (_hlong : chunk_size < text.length) :
    (∃ parts : List (List String),
      parts.flatten = pySplit text ∧
      makeChunks chunk_size text = parts.map fun l => pyStrip (joinWords l)) ∧
    ((∀ w ∈ pySplit text, w.length ≤ chunk_size) →
      ∀ c ∈ makeChunks chunk_size text, c.length ≤ chunk_size) := by
  constructor
  · obtain ⟨parts, h1, h2⟩ := chunkLoop_partition chunk_size (pySplit text)
      (pySplit_ne_empty text) [] (fun hx => absurd rfl hx)
    exact ⟨parts, by simpa using h1, h2⟩
  · intro hwords c hc
    exact chunkLoop_length_le chunk_size (pySplit text) "" hwords
      (Nat.zero_le _) c hc

/-- Witness for the amended claim C5 on a concrete short text, both halves
instantiated. -/
theorem makeChunks_word_bounded_spec_witness :
    (∃ parts : List (List String),
      parts.flatten = pySplit "ab cd ef" ∧
      makeChunks 5 "ab cd ef" = parts.map fun l => pyStrip (joinWords l)) ∧
    ((∀ w ∈ pySplit "ab cd ef", w.length ≤ 5) →
      ∀ c ∈ makeChunks 5 "ab cd ef", c.length ≤ 5) :=
  makeChunks_word_bounded_spec 5 "ab cd ef" (by decide)

/-- A single 3001-character word: one character longer than the default
translation chunk limit of 3000. -/
def longWord : String := String.mk (List.replicate 3001 'a')

theorem longWord_length : longWord.length = 3001 := by
  show (List.replicate 3001 'a').length = 3001
  rw [List.length_replicate]

theorem longWord_non_ws : ∀ c ∈ longWord.data, c.isWhitespace = false := by
  intro c hc
  have hc' : c ∈ List.replicate 3001 'a' := hc
  have hca : c = 'a' := List.eq_of_mem_replicate hc'
  subst hca
  decide

theorem wordsAux_all_non_ws :
    ∀ (l cur : List Char), (∀ c ∈ l, c.isWhitespace = false) →
      (cur ≠ [] ∨ l ≠ []) →
      wordsAux l cur = [String.mk (cur.reverse ++ l)] := by
  intro l
  induction l with
  | nil =>
    intro cur _ hor
    have hc : cur ≠ [] := by
      rcases hor with h | h
      · exact h
      · exact absurd rfl h
    simp [wordsAux, hc]
  | cons c cs ih =>
    intro cur hnw _
    have hcw : c.isWhitespace = false := hnw c (List.mem_cons_self c cs)
    have hcs : ∀ x ∈ cs, x.isWhitespace = false :=
      fun x hx => hnw x (List.mem_cons_of_mem c hx)
    rw [wordsAux, if_neg (by simp [hcw])]
    rw [ih (c :: cur) hcs (Or.inl (by simp))]
    simp

theorem pySplit_longWord : pySplit longWord = [longWord] := by
  unfold pySplit
  rw [wordsAux_all_non_ws longWord.data [] longWord_non_ws]
  · rfl
  · right
    intro h
    have h2 : (List.replicate 3001 'a').length = ([] : List Char).length :=
      congrArg List.length h
    rw [List.length_replicate, List.length_nil] at h2
    exact absurd h2 (by omega)

theorem makeChunks_longWord : makeChunks 3000 longWord = ["", longWord] := by
  have h0 : ("" : String).length = 0 := rfl
  have hne : longWord ≠ "" := by
    apply string_ne_empty_of_length_pos
    rw [longWord_length]
    omega
  unfold makeChunks
  rw [pySplit_longWord]
  rw [chunkLoop, if_pos (by rw [h0, longWord_length]; omega)]
  rw [chunkLoop, if_neg hne]
  rw [pyStrip_eq_self_of_non_ws longWord longWord_non_ws]
  rfl

/-- Claim C5, counterexample.  The claim states that for every text longer
than the chunk limit, every produced chunk has length at most the limit.
This is false at the default limit of 3000: a text consisting of one
3001-character word is longer than the limit, and chunking it produces the
chunk list `["", longWord]` whose second chunk has length 3001 > 3000 (the
`current_chunk = word` reset at src line 62 never re-checks the length of the
word itself). -/
theorem chunk_exceeds_limit_cex :
    3000 < longWord.length ∧
    ∃ c, c ∈ makeChunks 3000 longWord ∧ 3000 < c.length := by
  refine ⟨by rw [longWord_length]; omega, longWord, ?_, by rw [longWord_length]; omega⟩
  rw [makeChunks_longWord]
  exact List.mem_cons_of_mem _ (List.mem_cons_self _ _)

end TuzilastvoBih
